import Mathlib

/-!
Verification development for the query-orchestration engine of the
AI chat agent backend (`backend/app/services/ai_agent.py` and
`backend/app/services/chat_session_manager.py`).

The Python code is shallowly embedded below: pure string manipulation is
translated to structural-recursive Lean functions over `List Char`
(mirroring Python `str` semantics), stateful methods become explicit
state-passing functions, exception-raising code returns `Except`, and
external effects (the Gemini API, script execution) are abstracted as
function parameters supplying the outcome of the effect.
-/

namespace Spec2Proof

/-! ## Python string primitives

Executable models of the Python `str` operations used by the engine
(`in`, `find`, `replace`, `split`, `strip`, `lower`, `startswith`),
written with structural recursion so that concrete instances evaluate. -/

/-- Python `\s` character class for `str` patterns: space, tab, newline,
carriage return, vertical tab, form feed. -/
def isSpaceChar (c : Char) : Bool :=
  c == ' ' || c == '\t' || c == '\n' || c == '\r' || c == '\x0b' || c == '\x0c'

/-- Python regex `\w` class on ASCII text: letters, digits, underscore. -/
def isWordChar (c : Char) : Bool :=
  c.isAlphanum || c == '_'

/-- Test that `p` is a prefix of `l`. -/
def listPrefixOf : List Char → List Char → Bool
  | [], _ => true
  | _ :: _, [] => false
  | a :: as, b :: bs => a == b && listPrefixOf as bs

/-- Test that `p` occurs contiguously in `l`. -/
def listInfixOf (p : List Char) : List Char → Bool
  | [] => listPrefixOf p []
  | c :: cs => listPrefixOf p (c :: cs) || listInfixOf p cs

/-- Python `pat in s` (substring containment). -/
def strContains (s pat : String) : Bool :=
  listInfixOf pat.data s.data

/-- Python `s.startswith(pat)`. -/
def strStartsWith (s pat : String) : Bool :=
  listPrefixOf pat.data s.data

/-- Index of the first occurrence of `p` in `l` (Python `str.find`,
with `none` for the Python result `-1`). -/
def listFindIdx (p : List Char) : List Char → Option Nat
  | [] => if listPrefixOf p [] then some 0 else none
  | c :: cs =>
    if listPrefixOf p (c :: cs) then some 0
    else (listFindIdx p cs).map (· + 1)

/-- Replace every non-overlapping occurrence of `pat` by `repl`, scanning
left to right (Python `s.replace(pat, repl)` for non-empty `pat`).  The
fuel argument is the length of the scanned list; each step consumes at
least one character, so the fuel never runs out. -/
def listReplaceAux (pat repl : List Char) : Nat → List Char → List Char
  | 0, _ => []
  | _ + 1, [] => []
  | fuel + 1, c :: cs =>
    if pat ≠ [] ∧ listPrefixOf pat (c :: cs) then
      repl ++ listReplaceAux pat repl fuel ((c :: cs).drop pat.length)
    else
      c :: listReplaceAux pat repl fuel cs

/-- Python `s.replace(pat, repl)` for a non-empty `pat`. -/
def strReplace (s pat repl : String) : String :=
  String.mk (listReplaceAux pat.data repl.data s.data.length s.data)

/-- Splitting on a non-empty separator, Python `s.split(sep)`, with fuel
as in `listReplaceAux`. -/
def listSplitOnAux (sep : List Char) : Nat → List Char → List (List Char)
  | 0, _ => [[]]
  | _ + 1, [] => [[]]
  | fuel + 1, c :: cs =>
    if sep ≠ [] ∧ listPrefixOf sep (c :: cs) then
      [] :: listSplitOnAux sep fuel ((c :: cs).drop sep.length)
    else
      match listSplitOnAux sep fuel cs with
      | [] => [[c]]
      | chunk :: rest => (c :: chunk) :: rest

/-- Python `s.split(sep)` for a non-empty separator. -/
def strSplitOn (s sep : String) : List String :=
  (listSplitOnAux sep.data s.data.length s.data).map String.mk

/-- Python `s.strip()`: remove leading and trailing whitespace. -/
def strTrim (s : String) : String :=
  String.mk ((((s.data.dropWhile isSpaceChar).reverse.dropWhile isSpaceChar).reverse))

/-- Python `s.lower()` on ASCII text. -/
def strToLower (s : String) : String :=
  String.mk (s.data.map Char.toLower)

/-- Value of a decimal digit string (Python `int` on a string of digits). -/
def digitsToNat (s : String) : Nat :=
  s.data.foldl (fun n c => n * 10 + (c.toNat - 48)) 0

/-! ## Credential pool and model tiers

From `AIAgent.__init__`, `AIAgent.get_next_api_key`,
`AIAgent._is_model_limit_error` and `AIAgent._switch_to_fallback_model`. -/

/-- The field `self.primary_model_name`. -/
def primaryModelName : String := "gemini-2.5-pro"

/-- The field `self.fallback_model_name`. -/
def fallbackModelName : String := "gemini-2.5-flash"

/-- The field `self.tertiary_model_name`. -/
def tertiaryModelName : String := "gemini-2.5-flash-lite"

/-- Embedding of `AIAgent.get_next_api_key`: raises when the pool is empty, otherwise
returns `gemini_api_keys[current_api_index]` and advances the index by one
modulo the pool size (Python list indexing itself raises when the index is
out of range). -/
def getNextApiKey (geminiApiKeys : List String) (currentApiIndex : Nat) :
    Except String (String × Nat) :=
  if geminiApiKeys = [] then
    .error "No Gemini API keys available"
  else
    match geminiApiKeys.get? currentApiIndex with
    | none => .error "IndexError: list index out of range"
    | some key => .ok (key, (currentApiIndex + 1) % geminiApiKeys.length)

/-- Run of `n` consecutive `get_next_api_key` calls against a fixed pool,
collecting the returned credentials; `none` if any call raises. -/
def drawKeys (geminiApiKeys : List String) : Nat → Nat → Option (List String)
  | _, 0 => some []
  | idx, n + 1 =>
    match getNextApiKey geminiApiKeys idx with
    | .error _ => none
    | .ok (key, idx') => (drawKeys geminiApiKeys idx' n).map (key :: ·)

/-- The fixed keyword set of `AIAgent._is_model_limit_error`. -/
def limitIndicators : List String :=
  ["quota exceeded", "rate limit", "limit exceeded", "too many requests",
   "quota_exceeded", "rate_limit_exceeded", "model not available",
   "model unavailable", "resource_exhausted"]

/-- Embedding of `AIAgent._is_model_limit_error`: lowercase the message and test each
indicator for substring containment. -/
def isModelLimitError (errorMsg : String) : Bool :=
  limitIndicators.any (fun indicator => strContains (strToLower errorMsg) indicator)

/-- Embedding of `AIAgent._switch_to_fallback_model`: demote the process-wide model
tier one step, reporting whether anything changed. -/
def switchToFallbackModel (currentModelName : String) : String × Bool :=
  if currentModelName = primaryModelName then
    (fallbackModelName, true)
  else if currentModelName = fallbackModelName then
    (tertiaryModelName, true)
  else
    (currentModelName, false)

/-- Iterated tier demotion, `n` steps. -/
def demoteN : Nat → String → String
  | 0, m => m
  | n + 1, m => demoteN n (switchToFallbackModel m).1

/-! ## Inference gateway

From `AIAgent._call_gemini_api`.  The two `model.generate_content` calls
(the primary attempt and the retry after a tier demotion) are abstracted
as `Except`-valued outcomes supplied by the caller; usage counters and
logging are elided as they do not affect the returned text. -/

/-- The markdown-fence extraction step of `_call_gemini_api` (also
duplicated inside `_fix_code_based_on_error`): strip one leading
language-tagged fence if present, else one bare fence, else return the
text unmodified. -/
def extractFenced (result : String) : String :=
  let cs := result.data
  if strContains result "```python" then
    match listFindIdx "```python".data cs with
    | some i =>
      let start := i + 9
      match listFindIdx "```".data (cs.drop start) with
      | some j => strTrim (String.mk ((cs.drop start).take j))
      | none => result
    | none => result
  else if strContains result "```" then
    match listFindIdx "```".data cs with
    | some i =>
      let start := i + 3
      match listFindIdx "```".data (cs.drop start) with
      | some j => strTrim (String.mk ((cs.drop start).take j))
      | none => result
    | none => result
  else result

/-- The credential-sanitisation idiom of `_call_gemini_api` /
`_call_llm_api`: `if api_key and api_key in error_msg:
error_msg = error_msg.replace(api_key, "***API_KEY***")`. -/
def sanitizeKey (errorMsg apiKey : String) : String :=
  if apiKey ≠ "" ∧ strContains errorMsg apiKey = true then
    strReplace errorMsg apiKey "***API_KEY***"
  else errorMsg

/-- Result of one `_call_gemini_api` invocation: the returned text or the
raised error message, together with the model tier afterwards. -/
structure GeminiCallResult where
  outcome : Except String String
  modelAfter : String
deriving Repr

/-- Embedding of `AIAgent._call_gemini_api` with the credential already selected (as
called from `_call_llm_api`).  `primary` is the outcome of the first
`model.generate_content` call, `retry` the outcome of the retry performed
after a successful tier demotion. -/
def callGeminiApi (currentModelName : String)
    (primary retry : Except String String) (apiKey : String) :
    GeminiCallResult :=
  match primary with
  | .ok text => ⟨.ok (extractFenced text), currentModelName⟩
  | .error e =>
    let errorMsg := sanitizeKey e apiKey
    if isModelLimitError errorMsg then
      match switchToFallbackModel currentModelName with
      | (newModel, true) =>
        match retry with
        | .ok text => ⟨.ok (extractFenced text), newModel⟩
        | .error retryError =>
          ⟨.error ("Both primary and fallback models failed. Last error: "
                    ++ retryError), newModel⟩
      | (_, false) =>
        ⟨.error ("Model limit exceeded and no fallback available: " ++ errorMsg),
          currentModelName⟩
    else
      ⟨.error ("Gemini API error: " ++ errorMsg), currentModelName⟩

/-! ## Sandboxed executor

From `AIAgent.execute_code_safely`: the `safe_globals` mapping with its
enumerated `__builtins__` allowlist, the stdout redirection, the
`try/except/finally` shape.  The behaviour of a script is abstracted as a
function from the injected globals to one of the three outcomes `exec`
can have there: completion, a raise matched by the `except Exception`
handler, or a `BaseException`-only raise (`SystemExit`,
`KeyboardInterrupt`, `GeneratorExit`) that the handler does not match
and which therefore propagates — with `finally` restoring stdout in
every case. -/

/-- The names bound in the `__builtins__` entry of `safe_globals`, in
source order. -/
def safeBuiltinNames : List String :=
  ["print", "len", "str", "int", "float", "list", "dict", "tuple", "set",
   "range", "enumerate", "zip", "min", "max", "sum", "abs", "round",
   "sorted", "reversed", "any", "all", "isinstance", "type", "hasattr",
   "getattr", "setattr", "__import__",
   "Exception", "BaseException", "ImportError", "ValueError", "TypeError",
   "KeyError", "IndexError", "AttributeError", "NameError", "RuntimeError",
   "OSError", "FileNotFoundError", "PermissionError", "ConnectionError",
   "TimeoutError", "MemoryError", "NotImplementedError", "StopIteration",
   "GeneratorExit", "SystemExit", "KeyboardInterrupt"]

/-- The top-level names bound in `safe_globals`. -/
def safeGlobalNames : List String :=
  ["pd", "engine", "text", "session_id", "plt", "matplotlib", "__builtins__"]

/-- The execution environment `execute_code_safely` hands to `exec`. -/
structure SandboxGlobals where
  sessionId : String
  builtins : List String
  globals : List String
deriving DecidableEq, Repr

/-- The `safe_globals` mapping built for one call, keyed by the session. -/
def safeGlobals (sessionId : String) : SandboxGlobals :=
  ⟨sessionId, safeBuiltinNames, safeGlobalNames⟩

/-- Outcome of `exec(code, safe_globals)` for one script: it completes
(with the text printed to the redirected stdout), raises an
`Exception`-derived exception (matched by the `except Exception as e`
handler), or raises a `BaseException`-only exception — `SystemExit`,
`KeyboardInterrupt` or `GeneratorExit`, all of which the sandbox
builtins expose to scripts by name — which that handler does not match. -/
inductive ScriptOutcome where
  | completes (captured : String)
  | raisesExc (msg : String)
  | raisesBase (exn : String)
deriving DecidableEq, Repr

/-- Semantics of a generated script: the outcome of `exec` on it, given
the injected globals. -/
def Script : Type := SandboxGlobals → ScriptOutcome

/-- The ambient interpreter state relevant to `execute_code_safely`:
which stream `sys.stdout` currently points at, plus a supply of fresh
stream handles (a new `io.StringIO` buffer is allocated per call). -/
structure SysState where
  stdout : Nat
  nextHandle : Nat
deriving DecidableEq, Repr

/-- Embedding of `AIAgent.execute_code_safely`: build `safe_globals`, redirect
`sys.stdout` to a fresh in-memory buffer, run the script, return the
stripped captured output on completion or `"Error executing code: ..."`
for a raise matched by `except Exception`; a `BaseException`-only raise
is not matched and propagates to the caller (the `.error` result), and
the `finally` block restores `sys.stdout` in every one of the three
cases. -/
def executeCodeSafely (run : Script) (sessionId : String) (sys : SysState) :
    Except String String × SysState :=
  let oldStdout := sys.stdout
  let buffer := sys.nextHandle
  let sys1 : SysState := ⟨buffer, sys.nextHandle + 1⟩
  let (result, sys2) : Except String String × SysState :=
    match run (safeGlobals sessionId) with
    | .completes captured => (.ok (strTrim captured), sys1)
    | .raisesExc e => (.ok ("Error executing code: " ++ e), sys1)
    | .raisesBase exn => (.error exn, sys1)
  (result, { sys2 with stdout := oldStdout })

/-! ## Execution repair loop

From `AIAgent._execute_code_with_retry` and
`AIAgent._fix_code_based_on_error`. -/

/-- The field `self.max_retry_attempts`. -/
def maxRetryAttempts : Nat := 3

/-- The repair prompt built by `_fix_code_based_on_error`. -/
def fixPrompt (code errorMsg : String) : String :=
  "The following Python code failed to execute with this error:\n\nERROR: "
    ++ errorMsg
    ++ "\n\nCODE:\n```python\n"
    ++ code
    ++ "\n```\n\nPlease fix the code to resolve the error. \n\nIMPORTANT RULES:\n- Use ONLY the provided variables: pd, engine, text, session_id\n- Do NOT create new database connections (no psycopg2.connect(), no new engines)\n- Use the existing \x27engine\x27 variable for database queries\n- Use pd.read_sql() with the provided engine\n\nReturn ONLY the corrected Python code, no explanations.\n\nFixed code:"

/-- Embedding of `AIAgent._fix_code_based_on_error`: ask the inference gateway for a
patched script; on success strip a markdown fence from the reply, on any
exception return the original script unchanged.  `gemini` abstracts
`self._call_gemini_api`. -/
def fixCodeBasedOnError (gemini : String → Except String String)
    (code errorMsg : String) : String :=
  match gemini (fixPrompt code errorMsg) with
  | .ok fixedCode => extractFenced fixedCode
  | .error _ => code

/-- Embedding of `AIAgent._execute_code_with_retry`, instrumented with a count of the
`execute_code_safely` invocations made.  `execRes code` abstracts
`self.execute_code_safely(code, session_id)`; `fixer code err` abstracts
`self._fix_code_based_on_error(code, err)`.  The attempt-ceiling guard
raises inside its own `try`, so it is routed through the same `except`
handler as an execution failure, exactly as in the source. -/
def executeCodeWithRetry (execRes : String → String)
    (fixer : String → String → String) (code : String) (attempt : Nat) :
    Except String String × Nat :=
  let (inner, cnt) : Except String String × Nat :=
    if attempt > maxRetryAttempts then
      (.error ("Maximum execution attempts (" ++ toString maxRetryAttempts
                ++ ") exceeded"), 0)
    else
      let result := execRes code
      if strStartsWith result "Error executing code" then
        (.error result, 1)
      else
        (.ok result, 1)
  match inner with
  | .ok r => (.ok r, cnt)
  | .error e =>
    if attempt < maxRetryAttempts then
      let fixedCode := fixer code e
      if fixedCode ≠ code then
        let (r, c) := executeCodeWithRetry execRes fixer fixedCode (attempt + 1)
        (r, cnt + c)
      else
        let (r, c) := executeCodeWithRetry execRes fixer code (attempt + 1)
        (r, cnt + c)
    else
      (.error ("Code execution failed after " ++ toString maxRetryAttempts
                ++ " attempts: " ++ e), cnt)
termination_by maxRetryAttempts + 1 - attempt
decreasing_by all_goals omega

/-! ## Task decomposer

From `AIAgent._break_down_query_into_tasks` and
`AIAgent._fallback_task_breakdown`. -/

/-- One subtask dictionary produced by the decomposer. -/
structure TaskItem where
  taskId : String
  description : String
  query : String
  chartType : String
  priority : Nat
deriving DecidableEq, Repr

/-- Embedding of `AIAgent._fallback_task_breakdown`: deterministic keyword-rule
decomposition with a running task counter, ending in a single
general-analysis task when no rule fired. -/
def fallbackTaskBreakdown (query : String) : List TaskItem :=
  let q := strToLower query
  let cond1 := strContains q "description" || strContains q "what"
  let cond2 := strContains q "pie" || strContains q "piechart"
  let cond3 := strContains q "highest salary" || strContains q "maximum salary"
  let cond4 := strContains q "seattle" || strContains q "department"
  let tasks1 : List TaskItem :=
    if cond1 then
      [TaskItem.mk ("task_" ++ toString 1) "General dataset description"
        "Provide a general description of the dataset" "none" 1]
    else []
  let c1 : Nat := if cond1 then 2 else 1
  let tasks2 :=
    if cond2 then
      tasks1 ++ [TaskItem.mk ("task_" ++ toString c1)
        "Department population pie chart"
        "Create a pie chart showing department population spread" "pie" c1]
    else tasks1
  let c2 := if cond2 then c1 + 1 else c1
  let tasks3 :=
    if cond3 then
      tasks2 ++ [TaskItem.mk ("task_" ++ toString c2) "Find highest salary"
        "What is the highest salary in the dataset?" "none" c2]
    else tasks2
  let c3 := if cond3 then c2 + 1 else c2
  let tasks4 :=
    if cond4 then
      tasks3 ++ [TaskItem.mk ("task_" ++ toString c3)
        "Department analysis for Seattle employees"
        "Which department has the most employees from Seattle?" "bar" c3]
    else tasks3
  if tasks4 = [] then
    [TaskItem.mk "task_1" "General analysis" query "none" 1]
  else tasks4

/-- Embedding of `AIAgent._break_down_query_into_tasks`: one model call whose reply is
JSON-parsed into a task list; the fallback heuristic is used when the
call raises, the reply is empty, or parsing fails.  `callResult`
abstracts `self._call_gemini_api(breakdown_prompt)` and `parseTasks`
abstracts `json.loads` (plus the shape expected by the logging loop). -/
def breakDownQueryIntoTasks (query : String)
    (callResult : Except String String)
    (parseTasks : String → Except String (List TaskItem)) : List TaskItem :=
  match callResult with
  | .error _ => fallbackTaskBreakdown query
  | .ok response =>
    if response = "" then fallbackTaskBreakdown query
    else
      match parseTasks response with
      | .ok tasks => tasks
      | .error _ => fallbackTaskBreakdown query

/-- A `json.loads` oracle for the concrete reply `"[]"`: the empty JSON
list parses to the empty task list, anything else fails. -/
def parseEmptyJsonList (response : String) : Except String (List TaskItem) :=
  if response = "[]" then .ok [] else .error "JSONDecodeError"

/-! ## Session manager

From `ChatSessionManager.add_message_to_history`: one entry of the
`conversation_history` list and the append-then-truncate step. -/

/-- One `{"timestamp": ..., "message": ...}` history entry. -/
structure HistEntry where
  timestamp : Nat
  message : String
deriving DecidableEq, Repr

/-- Python `l[-n:]`: the last `n` elements. -/
def takeLast (n : Nat) (l : List HistEntry) : List HistEntry :=
  l.drop (l.length - n)

/-- The history cap of `add_message_to_history`. -/
def historyCap : Nat := 20

/-- Embedding of `ChatSessionManager.add_message_to_history`, restricted to its effect
on the `conversation_history` list: append the new entry, then keep only
the last 20 entries when the cap is exceeded. -/
def addMessageToHistory (history : List HistEntry) (entry : HistEntry) :
    List HistEntry :=
  let h := history ++ [entry]
  if h.length > historyCap then takeLast historyCap h else h

/-! ## Synthesis and chart inference

From `AIAgent._parse_synthesis_result` and `AIAgent._generate_chart_data`.
Each `re.findall` call is embedded as a deterministic matcher for its
pattern (the character classes involved are disjoint wherever the regex
engine would backtrack, except for the generic pattern, whose
backtracking is modelled explicitly) driven by the Python scan-and-advance
`findall` loop. -/

/-- Matcher for `(\w+):\s*(\d+)` anchored at the current position. -/
def matchColonNumAt (cs : List Char) : Option ((String × String) × List Char) :=
  let w := cs.takeWhile isWordChar
  if w = [] then none
  else
    match cs.dropWhile isWordChar with
    | ':' :: rest1 =>
      let rest2 := rest1.dropWhile isSpaceChar
      let d := rest2.takeWhile Char.isDigit
      if d = [] then none
      else some ((String.mk w, String.mk d), rest2.dropWhile Char.isDigit)
    | _ => none

/-- Consume a literal character sequence. -/
def eatLiteral (lit cs : List Char) : Option (List Char) :=
  if listPrefixOf lit cs then some (cs.drop lit.length) else none

/-- Consume `\s+` (at least one whitespace character). -/
def eatSpaces1 (cs : List Char) : Option (List Char) :=
  if (cs.takeWhile isSpaceChar) = [] then none
  else some (cs.dropWhile isSpaceChar)

/-- Consume `\d+`, returning the digits. -/
def eatDigits1 (cs : List Char) : Option (List Char × List Char) :=
  let d := cs.takeWhile Char.isDigit
  if d = [] then none else some (d, cs.dropWhile Char.isDigit)

/-- Consume `(\w+)`, returning the word. -/
def eatWord1 (cs : List Char) : Option (List Char × List Char) :=
  let w := cs.takeWhile isWordChar
  if w = [] then none else some (w, cs.dropWhile isWordChar)

/-- Consume an optional literal `s` (the regex idiom `...s?`). -/
def eatOptionalS (cs : List Char) : List Char :=
  match cs with
  | 's' :: rest => rest
  | _ => cs

/-- Consume a `\s+ literal` pair for each listed literal, in order. -/
def eatSpacedLits : List (List Char) → List Char → Option (List Char)
  | [], cs => some cs
  | lit :: rest, cs =>
    match eatSpaces1 cs with
    | none => none
    | some cs1 =>
      match eatLiteral lit cs1 with
      | none => none
      | some cs2 => eatSpacedLits rest cs2

/-- Matcher for `(\w+)\s+has\s+employees\s+in\s+(\d+)\s+unique\s+cities?`. -/
def matchCityAt (cs : List Char) : Option ((String × String) × List Char) := do
  let (w, r1) ← eatWord1 cs
  let r2 ← eatSpacedLits ["has".data, "employees".data, "in".data] r1
  let r3 ← eatSpaces1 r2
  let (d, r4) ← eatDigits1 r3
  let r5 ← eatSpacedLits ["unique".data, "citie".data] r4
  some ((String.mk w, String.mk d), eatOptionalS r5)

/-- Matcher for `(\w+)\s+has\s+(\d+)\s+employees?`. -/
def matchDeptAt (cs : List Char) : Option ((String × String) × List Char) := do
  let (w, r1) ← eatWord1 cs
  let r2 ← eatSpacedLits ["has".data] r1
  let r3 ← eatSpaces1 r2
  let (d, r4) ← eatDigits1 r3
  let r5 ← eatSpacedLits ["employee".data] r4
  some ((String.mk w, String.mk d), eatOptionalS r5)

/-- Matcher for
`(\w+)\s+department\s+has\s+the\s+most\s+employees?\s+from\s+Seattle`
(one capture group).  The optional `s` of `employees?` is mid-pattern,
but `s` is not whitespace, so taking it greedily when present is the only
alternative the regex engine could keep. -/
def matchSeattleAt (cs : List Char) : Option (String × List Char) := do
  let (w, r1) ← eatWord1 cs
  let r2 ← eatSpacedLits
    ["department".data, "has".data, "the".data, "most".data, "employee".data] r1
  let r3 ← eatSpacedLits ["from".data, "Seattle".data] (eatOptionalS r2)
  some (String.mk w, r3)

/-- Matcher for `(\$[\d,]+)` (one capture group). -/
def matchSalaryAt (cs : List Char) : Option (String × List Char) :=
  match cs with
  | '$' :: rest =>
    let d := rest.takeWhile (fun c => c.isDigit || c == ',')
    if d = [] then none
    else some (String.mk ('$' :: d), rest.dropWhile (fun c => c.isDigit || c == ','))
  | _ => none

/-- Matcher for `(\w+)\s*[:\-]?\s*(\d+)`.  The greedy `\w+` first claims
the whole word run with the remainder of the pattern matching after it;
failing that, the engine backtracks to the longest proper prefix of the
run whose following character is a digit (no other prefix can satisfy
`[:\-]?\s*\d+` inside a word run). -/
def matchGenericAt (cs : List Char) : Option ((String × String) × List Char) :=
  let run := cs.takeWhile isWordChar
  if run = [] then none
  else
    let after := cs.dropWhile isWordChar
    let fullTry : Option ((String × String) × List Char) :=
      let r1 := after.dropWhile isSpaceChar
      let r2 := match r1 with
                | ':' :: t => t
                | '-' :: t => t
                | t => t
      let r3 := r2.dropWhile isSpaceChar
      let d := r3.takeWhile Char.isDigit
      if d = [] then none
      else some ((String.mk run, String.mk d), r3.dropWhile Char.isDigit)
    match fullTry with
    | some m => some m
    | none =>
      let candidates :=
        (List.range run.length).filter
          (fun k => 1 ≤ k && (run.getD k ' ').isDigit)
      match candidates.getLast? with
      | none => none
      | some k =>
        let d := (run.drop k).takeWhile Char.isDigit
        some ((String.mk (run.take k), String.mk d),
              (run.drop k).dropWhile Char.isDigit ++ after)

/-- The Python `re.findall` scan loop for a two-group pattern: try the
matcher at each position, emit the groups and resume after the match, or
advance one character.  Every matcher above consumes at least one
character on success, so `l.length` steps of fuel are exact. -/
def findAllAux (matchAt : List Char → Option ((String × String) × List Char)) :
    Nat → List Char → List (String × String)
  | 0, _ => []
  | _ + 1, [] => []
  | fuel + 1, c :: cs =>
    match matchAt (c :: cs) with
    | some (g, rest) => g :: findAllAux matchAt fuel rest
    | none => findAllAux matchAt fuel cs

/-- Python `re.findall` for a two-group pattern over a string. -/
def findAll2 (matchAt : List Char → Option ((String × String) × List Char))
    (s : String) : List (String × String) :=
  findAllAux matchAt s.data.length s.data

/-- The Python `re.findall` scan loop for a one-group pattern. -/
def findAllAux1 (matchAt : List Char → Option (String × List Char)) :
    Nat → List Char → List String
  | 0, _ => []
  | _ + 1, [] => []
  | fuel + 1, c :: cs =>
    match matchAt (c :: cs) with
    | some (g, rest) => g :: findAllAux1 matchAt fuel rest
    | none => findAllAux1 matchAt fuel cs

/-- Python `re.findall` for a one-group pattern over a string. -/
def findAll1 (matchAt : List Char → Option (String × List Char))
    (s : String) : List String :=
  findAllAux1 matchAt s.data.length s.data

/-- Embedding of `re.findall` with the word-colon-number pattern over the raw data. -/
def findallColonNum (rawData : String) : List (String × String) :=
  findAll2 matchColonNumAt rawData

/-- Embedding of `re.findall` with the unique-cities pattern over the raw data. -/
def findallCity (rawData : String) : List (String × String) :=
  findAll2 matchCityAt rawData

/-- Embedding of `re.findall` with the department-employees pattern over the raw data. -/
def findallDept (rawData : String) : List (String × String) :=
  findAll2 matchDeptAt rawData

/-- Embedding of `re.findall` with the Seattle pattern over the raw data. -/
def findallSeattle (rawData : String) : List String :=
  findAll1 matchSeattleAt rawData

/-- Embedding of `re.findall` with the dollar-amount pattern over the raw data. -/
def findallSalary (rawData : String) : List String :=
  findAll1 matchSalaryAt rawData

/-- Embedding of `re.findall` with the generic word-number pattern over the raw data. -/
def findallGeneric (rawData : String) : List (String × String) :=
  findAll2 matchGenericAt rawData

/-- The chart payload assembled by `_generate_chart_data` (the fixed
`backgroundColor` constants are elided). -/
structure ChartData where
  ctype : String
  datasetLabel : Option String
  labels : List String
  values : List Nat
deriving DecidableEq, Repr

/-- The fixed salary bucket labels. -/
def salaryBucketRanges : List String :=
  ["$50k-60k", "$60k-70k", "$70k-80k", "$80k-90k", "$90k+"]

/-- Value of a matched salary: Python `int` after removing dollar signs and commas. -/
def salaryValue (s : String) : Nat :=
  digitsToNat (String.mk (s.data.filter Char.isDigit))

/-- The bucket-counting loop of the salary branch. -/
def salaryBucketCounts (values : List Nat) : List Nat :=
  values.foldl
    (fun counts v =>
      let i := if v < 60000 then 0 else if v < 70000 then 1
               else if v < 80000 then 2 else if v < 90000 then 3 else 4
      counts.set i (counts.getD i 0 + 1))
    [0, 0, 0, 0, 0]

/-- The trailing generic-pattern block of `_generate_chart_data`.  In the
source it is written after both chart-type branches, but `import re` sits
inside the bar branch only, so the block can run its extraction only when
the bar branch executed first and bound the function-local `re`; every
other route into it raises `UnboundLocalError` before matching. -/
def genericChartBranch (rawData ctype : String) : Option ChartData :=
  let g := findallGeneric rawData
  if 2 ≤ g.length then
    some ⟨ctype, some (if ctype = "bar" then "Count" else "Value"),
          g.map (·.1), g.map (fun p => digitsToNat p.2)⟩
  else none

/-- Embedding of `AIAgent._generate_chart_data`.  `import re` is local to
the bar branch and nothing else binds `re` in the function, so only the
bar branch performs pattern extraction (its five specific patterns, then
the generic block with `re` now bound).  The pie branch and the generic
block reached directly for any other chart type reference the unbound
function-local `re`, raise `UnboundLocalError`, and the enclosing
`except Exception` returns `None` — so every non-bar chart type yields
`none` unconditionally.  A salary string whose digits are empty likewise
makes the Python `int` raise, which the same `except` turns into
`None`. -/
def generateChartData (rawData ctype dataDescription : String) :
    Option ChartData :=
  if ctype = "bar" then
    let m1 := findallColonNum rawData
    if m1 ≠ [] then
      some ⟨"bar", some "Count", m1.map (·.1), m1.map (fun p => digitsToNat p.2)⟩
    else
      let m2 := findallCity rawData
      if m2 ≠ [] then
        some ⟨"bar", some "Unique Cities", m2.map (·.1),
              m2.map (fun p => digitsToNat p.2)⟩
      else
        let m3 := findallDept rawData
        if m3 ≠ [] then
          some ⟨"bar", some "Employee Count", m3.map (·.1),
                m3.map (fun p => digitsToNat p.2)⟩
        else
          let m4 := findallSeattle rawData
          if m4 ≠ [] then
            some ⟨"bar", some "Seattle Employees", m4, [1]⟩
          else
            let salaries := findallSalary rawData
            if salaries ≠ [] then
              if salaries.any (fun s => s.data.filter Char.isDigit = []) then
                none
              else
                some ⟨"bar", some "Number of Employees", salaryBucketRanges,
                      salaryBucketCounts (salaries.map salaryValue)⟩
            else genericChartBranch rawData ctype
  else if ctype = "pie" then
    none
  else
    none

/-- The `split("|")` / field-stripping step of `_parse_synthesis_result`:
`(answer_part, chart_part, data_part)`. -/
def synthesisParts (synthesisResult : String) : String × String × String :=
  let parts := strSplitOn synthesisResult "|"
  let answerPart := strTrim (strReplace (parts.getD 0 "") "Answer:" "")
  let chartPart :=
    if 1 < parts.length then strTrim (strReplace (parts.getD 1 "") "Chart:" "")
    else ""
  let dataPart :=
    if 2 < parts.length then strTrim (strReplace (parts.getD 2 "") "Data:" "")
    else ""
  (answerPart, chartPart, dataPart)

/-- The recognized chart types of `_parse_synthesis_result`. -/
def validChartTypes : List String := ["bar", "pie", "line", "scatter"]

/-- The user-visible fields of the dictionary `_parse_synthesis_result`
returns; `chartData` holds either the raw `Data:` description string or a
generated chart payload, as in the source where the same key is first set
to `data_part` and later overwritten by the generated dict. -/
structure ParseResult where
  answer : String
  chartType : String
  chartData : Option (String ⊕ ChartData)
deriving DecidableEq, Repr

/-- Embedding of `AIAgent._parse_synthesis_result` (the counters and echoed
`raw_data` / `generated_code` fields are elided). -/
def parseSynthesisResult (synthesisResult rawData : String) : ParseResult :=
  let defaultAnswer := if synthesisResult ≠ "" then synthesisResult else rawData
  if strContains synthesisResult "| Chart:" then
    let (answerPart, chartPart, dataPart) := synthesisParts synthesisResult
    let ctype := strToLower chartPart
    if ctype ≠ "none" ∧ ctype ∈ validChartTypes then
      match generateChartData rawData ctype dataPart with
      | some chartData => ⟨answerPart, ctype, some (Sum.inr chartData)⟩
      | none => ⟨answerPart, "none", some (Sum.inl dataPart)⟩
    else ⟨answerPart, ctype, some (Sum.inl dataPart)⟩
  else if strStartsWith synthesisResult "Answer:" then
    ⟨strTrim (strReplace synthesisResult "Answer:" ""), "none", none⟩
  else ⟨defaultAnswer, "none", none⟩

/-! ## Helper lemmas -/

/-- A prefix of `l` is a prefix of `l ++ t`. -/
lemma listPrefixOf_append {p l : List Char} (h : listPrefixOf p l = true)
    (t : List Char) : listPrefixOf p (l ++ t) = true := by
  induction p generalizing l with
  | nil => simp [listPrefixOf]
  | cons a as ih =>
    cases l with
    | nil => simp [listPrefixOf] at h
    | cons b bs =>
      simp only [listPrefixOf, Bool.and_eq_true] at h ⊢
      exact ⟨h.1, ih h.2⟩

/-- The fixed error marker is a prefix of every message
`execute_code_safely` builds from an exception. -/
lemma errorMarker_startsWith (e : String) :
    strStartsWith ("Error executing code: " ++ e) "Error executing code" = true := by
  show listPrefixOf "Error executing code".data
    ("Error executing code: ".data ++ e.data) = true
  exact listPrefixOf_append (by decide) e.data

/-! ## Claims -/

/-- C1 (counterexample).  The claim states that `execute_code_safely`
grants "no dynamic import beyond a fixed allowlist".  The enumerated
`__builtins__` mapping passes the real, unrestricted Python `__import__`
primitive straight through to the script, so any module — `os`,
`subprocess`, `socket` — is importable from inside the sandbox; there is
no import allowlist anywhere in the function. -/
theorem C1_counterexample :
    "__import__" ∈ (safeGlobals "session-1").builtins := by decide

/-- C1 (amended): `execute_code_safely` replaces the builtins of the script
with the enumerated allowlist, which binds no direct filesystem, eval or
attribute-free escape primitive (`open`, `exec`, `eval`, `compile`,
`input` are all absent), but the allowlist does include the unrestricted
`__import__` builtin, so dynamic import — and through it filesystem,
network and process access — remains reachable from inside the sandbox. -/
theorem C1_amended_allowlist :
    "__import__" ∈ safeBuiltinNames ∧
    "open" ∉ safeBuiltinNames ∧
    "exec" ∉ safeBuiltinNames ∧
    "eval" ∉ safeBuiltinNames ∧
    "compile" ∉ safeBuiltinNames ∧
    "input" ∉ safeBuiltinNames ∧
    ∀ sessionId, (safeGlobals sessionId).builtins = safeBuiltinNames :=
  ⟨by decide, by decide, by decide, by decide, by decide, by decide,
   fun _ => rfl⟩

/-- C1 amended witness: the builtins handed to a concrete session are the
enumerated allowlist. -/
theorem C1_witness :
    (safeGlobals "sid-42").builtins = safeBuiltinNames :=
  C1_amended_allowlist.2.2.2.2.2.2 "sid-42"

/-- C2 (code bug).  The claim — and the sanitisation comments inside the
component itself — require every secret to be redacted from any propagated error
text, including the retry-after-demotion path.  But when the primary call
fails with a limit-classified error and the retry after demotion also
fails, `_call_gemini_api` raises
`"Both primary and fallback models failed. Last error: " + str(retry_error)`
without applying the redaction substitution, so a secret contained in the
retry error text escapes verbatim.  Evaluated here at the concrete
credential `"sk-12345"`. -/
theorem C2_retry_path_leaks_secret :
    (callGeminiApi primaryModelName
        (.error "quota exceeded sk-12345") (.error "boom sk-12345")
        "sk-12345").outcome
      = .error "Both primary and fallback models failed. Last error: boom sk-12345"
    ∧ strContains
        "Both primary and fallback models failed. Last error: boom sk-12345"
        "sk-12345" = true :=
  ⟨rfl, by decide⟩

/-- C3 (counterexample).  The claim says any raising script makes
`execute_code_safely` return normally with the error marker and never
propagate; but the source handler is `except Exception` only, and a
script raising `SystemExit` — a name the sandbox builtins hand to
scripts — propagates out of the call uncaught (the `.error` result of
the embedding), with no marker string returned. -/
theorem C3_counterexample :
    (executeCodeSafely (fun _ => .raisesBase "SystemExit") "s" ⟨0, 1⟩).1
      = .error "SystemExit"
    ∧ "SystemExit" ∈ safeBuiltinNames :=
  ⟨rfl, by decide⟩

/-- C3 (amended): for every script whose execution raises an
`Exception`-derived exception, `execute_code_safely` returns normally
with the string `"Error executing code: ..."` (prefixed by the fixed
marker) rather than propagating; a `BaseException`-only raise such as
`SystemExit` propagates to the caller; and in every case — completion,
caught exception, or propagating raise — the ambient stdout stream is
restored to its prior value by the `finally` block. -/
theorem C3_executor_catches_and_restores (run : Script) (sessionId : String)
    (sys : SysState) (e : String)
    (h : run (safeGlobals sessionId) = .raisesExc e) :
    (executeCodeSafely run sessionId sys).1
        = .ok ("Error executing code: " ++ e)
    ∧ strStartsWith ("Error executing code: " ++ e)
        "Error executing code" = true
    ∧ (executeCodeSafely run sessionId sys).2.stdout = sys.stdout
    ∧ ∀ run2 : Script,
        (executeCodeSafely run2 sessionId sys).2.stdout = sys.stdout := by
  have hrestore : ∀ run2 : Script,
      (executeCodeSafely run2 sessionId sys).2.stdout = sys.stdout := by
    intro run2
    unfold executeCodeSafely
    rcases run2 (safeGlobals sessionId) with t | msg | exn <;> rfl
  refine ⟨?_, errorMarker_startsWith e, hrestore run, hrestore⟩
  unfold executeCodeSafely
  rw [h]

/-- C3 witness: a script raising the `Exception`-derived `"boom"` in
ambient state `⟨0, 1⟩` is caught, marked, and leaves stdout restored. -/
theorem C3_witness :
    (executeCodeSafely (fun _ => .raisesExc "boom") "s" ⟨0, 1⟩).1
      = .ok ("Error executing code: " ++ "boom")
    ∧ (executeCodeSafely (fun _ => .raisesExc "boom") "s" ⟨0, 1⟩).2.stdout = 0 :=
  ⟨(C3_executor_catches_and_restores (fun _ => .raisesExc "boom") "s" ⟨0, 1⟩
      "boom" rfl).1,
   (C3_executor_catches_and_restores (fun _ => .raisesExc "boom") "s" ⟨0, 1⟩
      "boom" rfl).2.2.1⟩

/-- Any number of demotions starting at the tertiary tier changes nothing. -/
lemma demoteN_tertiary (n : Nat) :
    demoteN n tertiaryModelName = tertiaryModelName := by
  induction n with
  | zero => rfl
  | succ k ih =>
    show demoteN k (switchToFallbackModel tertiaryModelName).1 = _
    have hstep : (switchToFallbackModel tertiaryModelName).1 = tertiaryModelName := by
      decide
    rw [hstep]
    exact ih

/-- C4: from the primary tier, demotions move the tier primary →
secondary → tertiary (each reporting a change), three demotions land on
the tertiary tier, and every further demotion is a no-op that returns
`false` and leaves the tier unchanged. -/
theorem C4_tier_demotion_monotone_terminal :
    switchToFallbackModel primaryModelName = (fallbackModelName, true)
    ∧ switchToFallbackModel fallbackModelName = (tertiaryModelName, true)
    ∧ demoteN 3 primaryModelName = tertiaryModelName
    ∧ switchToFallbackModel tertiaryModelName = (tertiaryModelName, false)
    ∧ ∀ n, demoteN n tertiaryModelName = tertiaryModelName :=
  ⟨by decide, by decide, by decide, by decide, demoteN_tertiary⟩

/-- C4 witness: five further demotions after reaching tertiary leave the
tier at tertiary. -/
theorem C4_witness :
    demoteN 3 primaryModelName = tertiaryModelName
    ∧ demoteN 5 tertiaryModelName = tertiaryModelName :=
  ⟨C4_tier_demotion_monotone_terminal.2.2.1,
   C4_tier_demotion_monotone_terminal.2.2.2.2 5⟩

/-- C10: if the inference call inside the patch step raises, the repair
step returns the original script text unchanged. -/
theorem C10_patch_failure_keeps_script
    (gemini : String → Except String String) (code errorMsg e : String)
    (h : gemini (fixPrompt code errorMsg) = .error e) :
    fixCodeBasedOnError gemini code errorMsg = code := by
  unfold fixCodeBasedOnError
  rw [h]

/-- C10 witness: a gateway that always raises leaves `"x = 1"` intact. -/
theorem C10_witness :
    fixCodeBasedOnError (fun _ => .error "service down") "x = 1" "err" = "x = 1" :=
  C10_patch_failure_keeps_script (fun _ => .error "service down") "x = 1" "err"
    "service down" rfl

/-- Splitting a run of `get_next_api_key` draws: while the index stays in
range, the first `n` draws read `keys[idx..idx+n)` and the run continues
at `(idx + n) % keys.length`. -/
lemma drawKeys_split (keys : List String) (m : Nat) :
    ∀ n idx, idx < keys.length → idx + n ≤ keys.length →
      drawKeys keys idx (n + m)
        = (drawKeys keys ((idx + n) % keys.length) m).map
            (fun l => (keys.drop idx).take n ++ l) := by
  intro n
  induction n with
  | zero =>
    intro idx h1 _
    simp [Nat.mod_eq_of_lt h1]
  | succ k ih =>
    intro idx h1 h2
    have hne : keys ≠ [] :=
      List.ne_nil_of_length_pos (Nat.lt_of_le_of_lt (Nat.zero_le idx) h1)
    have hdropcons : keys.drop idx = keys.get ⟨idx, h1⟩ :: keys.drop (idx + 1) := by
      rw [List.drop_eq_getElem_cons h1]
      simp [List.get_eq_getElem]
    have hget : getNextApiKey keys idx
        = .ok (keys.get ⟨idx, h1⟩, (idx + 1) % keys.length) := by
      unfold getNextApiKey
      rw [if_neg hne, List.get?_eq_get h1]
    have hstep : drawKeys keys idx (k + 1 + m)
        = (drawKeys keys ((idx + 1) % keys.length) (k + m)).map
            (keys.get ⟨idx, h1⟩ :: ·) := by
      rw [show k + 1 + m = (k + m) + 1 from by omega]
      simp only [drawKeys, hget]
    rw [hstep]
    rcases Nat.lt_or_ge (idx + 1) keys.length with hlt | hge
    · rw [Nat.mod_eq_of_lt hlt, ih (idx + 1) hlt (by omega)]
      rw [Option.map_map]
      have hidxeq : idx + 1 + k = idx + (k + 1) := by omega
      rw [hidxeq]
      have htake : (keys.drop idx).take (k + 1)
          = keys.get ⟨idx, h1⟩ :: (keys.drop (idx + 1)).take k := by
        rw [hdropcons]
        rfl
      rw [htake]
      rfl
    · have hk0 : k = 0 := by omega
      subst hk0
      have hidx1 : idx + 1 = keys.length := by omega
      have htake1 : (keys.drop idx).take 1 = [keys.get ⟨idx, h1⟩] := by
        rw [hdropcons]
        rfl
      simp only [Nat.zero_add, Nat.add_zero]
      rw [hidx1, Nat.mod_self, htake1]
      simp

/-- C5: against a fixed, duplicate-free, non-empty pool and an in-range
rotation index, `keys.length` consecutive `get_next_api_key` calls all
succeed and return the rotation `keys[idx..] ++ keys[..idx]`: every
registered credential exactly once before any repeats. -/
theorem C5_round_robin_visits_all (keys : List String) (idx : Nat)
    (h0 : keys ≠ []) (h1 : idx < keys.length) (h2 : keys.Nodup) :
    drawKeys keys idx keys.length = some (keys.drop idx ++ keys.take idx)
    ∧ (keys.drop idx ++ keys.take idx).length = keys.length
    ∧ ∀ k ∈ keys, (keys.drop idx ++ keys.take idx).count k = 1 := by
  have hmain : drawKeys keys idx keys.length
      = some (keys.drop idx ++ keys.take idx) := by
    have hsplit := drawKeys_split keys idx (keys.length - idx) idx h1 (by omega)
    have hlen : keys.length - idx + idx = keys.length := by omega
    rw [hlen] at hsplit
    have hidx2 : (idx + (keys.length - idx)) % keys.length = 0 := by
      rw [show idx + (keys.length - idx) = keys.length from by omega, Nat.mod_self]
    rw [hidx2] at hsplit
    have hzero := drawKeys_split keys 0 idx 0
      (Nat.lt_of_le_of_lt (Nat.zero_le idx) h1) (by omega)
    have hz : drawKeys keys 0 idx = some (keys.take idx) := by
      simpa [drawKeys] using hzero
    rw [hz] at hsplit
    have htake : (keys.drop idx).take (keys.length - idx) = keys.drop idx := by
      rw [← List.length_drop]
      exact List.take_length _
    rw [hsplit, htake]
    rfl
  refine ⟨hmain, ?_, ?_⟩
  · rw [List.length_append, List.length_drop, List.length_take,
      Nat.min_eq_left (Nat.le_of_lt h1)]
    omega
  · intro k hk
    rw [← List.rotate_eq_drop_append_take (Nat.le_of_lt h1),
      (List.rotate_perm keys idx).count_eq]
    exact List.count_eq_one_of_mem h2 hk

/-- C5 witness: pool `["k1", "k2", "k3"]` starting at index 1. -/
theorem C5_witness :
    drawKeys ["k1", "k2", "k3"] 1 3 = some ["k2", "k3", "k1"]
    ∧ ∀ k ∈ (["k1", "k2", "k3"] : List String),
        (["k2", "k3", "k1"] : List String).count k = 1 := by
  have h := C5_round_robin_visits_all ["k1", "k2", "k3"] 1
    (by decide) (by decide) (by decide)
  exact ⟨by simpa using h.1, by simpa using h.2.2⟩

/-- C6 (counterexample).  The claim says the decomposer never returns an
empty subtask list, even when the model response parses to an empty JSON
list.  But `_break_down_query_into_tasks` returns `json.loads(response)`
unchecked, so the reply `"[]"` yields the empty list. -/
theorem C6_counterexample :
    breakDownQueryIntoTasks "compare sales and marketing" (.ok "[]")
      parseEmptyJsonList = [] := by decide

/-- C6 (amended): the decomposer falls back — and the fallback always
yields at least one subtask — when the model call raises, the reply is
empty, or JSON parsing fails; a reply that parses to an empty JSON list,
however, is returned as-is (empty).  For a question matching none of the
keyword rules of the fallback, the fallback returns exactly one subtask whose
sub-question is the original question with chart kind `none`. -/
theorem C6_decomposer_fallback (q r e msg : String)
    (p : String → Except String (List TaskItem)) :
    breakDownQueryIntoTasks q (.error e) p = fallbackTaskBreakdown q
    ∧ breakDownQueryIntoTasks q (.ok "") p = fallbackTaskBreakdown q
    ∧ (p r = .error msg →
        breakDownQueryIntoTasks q (.ok r) p = fallbackTaskBreakdown q)
    ∧ fallbackTaskBreakdown q ≠ []
    ∧ (strContains (strToLower q) "description" = false →
       strContains (strToLower q) "what" = false →
       strContains (strToLower q) "pie" = false →
       strContains (strToLower q) "piechart" = false →
       strContains (strToLower q) "highest salary" = false →
       strContains (strToLower q) "maximum salary" = false →
       strContains (strToLower q) "seattle" = false →
       strContains (strToLower q) "department" = false →
       fallbackTaskBreakdown q
         = [TaskItem.mk "task_1" "General analysis" q "none" 1]) := by
  refine ⟨rfl, rfl, ?_, ?_, ?_⟩
  · intro hp
    by_cases hr : r = ""
    · subst hr
      rfl
    · simp [breakDownQueryIntoTasks, hr, hp]
  · simp only [fallbackTaskBreakdown]
    by_cases hc1 : (strContains (strToLower q) "description"
        || strContains (strToLower q) "what") = true <;>
    by_cases hc2 : (strContains (strToLower q) "pie"
        || strContains (strToLower q) "piechart") = true <;>
    by_cases hc3 : (strContains (strToLower q) "highest salary"
        || strContains (strToLower q) "maximum salary") = true <;>
    by_cases hc4 : (strContains (strToLower q) "seattle"
        || strContains (strToLower q) "department") = true <;>
    simp [hc1, hc2, hc3, hc4]
  · intro hd hw hp hpc hhs hms hse hdep
    simp [fallbackTaskBreakdown, hd, hw, hp, hpc, hhs, hms, hse, hdep]

/-- C6 witness: the model call fails to parse on a question with no
recognizable markers, so exactly one subtask with the original question
and chart kind `none` comes back. -/
theorem C6_witness :
    breakDownQueryIntoTasks "summarize revenue by region" (.ok "not json")
      parseEmptyJsonList = fallbackTaskBreakdown "summarize revenue by region"
    ∧ fallbackTaskBreakdown "summarize revenue by region"
        = [TaskItem.mk "task_1" "General analysis" "summarize revenue by region"
            "none" 1] := by
  have h := C6_decomposer_fallback "summarize revenue by region" "not json"
    "e" "JSONDecodeError" parseEmptyJsonList
  exact ⟨h.2.2.1 rfl,
    h.2.2.2.2 (by decide) (by decide) (by decide) (by decide) (by decide)
      (by decide) (by decide) (by decide)⟩

/-- The retained history is never longer than the cap. -/
lemma takeLast_length_le (n : Nat) (l : List HistEntry) :
    (takeLast n l).length ≤ n := by
  simp only [takeLast, List.length_drop]
  omega

/-- Truncation keeps a list that already fits. -/
lemma takeLast_eq_self {n : Nat} {l : List HistEntry} (h : l.length ≤ n) :
    takeLast n l = l := by
  simp [takeLast, Nat.sub_eq_zero_of_le h]

/-- One `add_message_to_history` step is exactly append-then-keep-last-20. -/
lemma addMessage_eq_takeLast (h : List HistEntry) (e : HistEntry) :
    addMessageToHistory h e = takeLast historyCap (h ++ [e]) := by
  show (if (h ++ [e]).length > historyCap
      then takeLast historyCap (h ++ [e]) else (h ++ [e]))
    = takeLast historyCap (h ++ [e])
  by_cases hlen : (h ++ [e]).length > historyCap
  · rw [if_pos hlen]
  · rw [if_neg hlen, takeLast_eq_self (by omega)]

/-- Truncation ignores everything left of a block that already covers it. -/
lemma takeLast_append_right (n : Nat) (u v : List HistEntry)
    (h : n ≤ v.length) : takeLast n (u ++ v) = takeLast n v := by
  unfold takeLast
  rw [List.length_append,
    show u.length + v.length - n = u.length + (v.length - n) from by omega,
    List.drop_append]

/-- Truncating, appending, and truncating again is the same as truncating
the full history once. -/
lemma takeLast_absorb (n : Nat) (x y : List HistEntry) :
    takeLast n (takeLast n x ++ y) = takeLast n (x ++ y) := by
  rcases le_or_lt x.length n with hle | hlt
  · rw [takeLast_eq_self hle]
  · have hxlen : (takeLast n x).length = n := by
      simp only [takeLast, List.length_drop]
      omega
    have hsplit : x.take (x.length - n) ++ takeLast n x = x :=
      List.take_append_drop _ x
    calc takeLast n (takeLast n x ++ y)
        = takeLast n (x.take (x.length - n) ++ (takeLast n x ++ y)) :=
          (takeLast_append_right n (x.take (x.length - n)) (takeLast n x ++ y)
            (by rw [List.length_append, hxlen]; omega)).symm
      _ = takeLast n ((x.take (x.length - n) ++ takeLast n x) ++ y) := by
          rw [List.append_assoc]
      _ = takeLast n (x ++ y) := by rw [hsplit]

/-- Any non-empty run of `add_message_to_history` calls retains exactly
the last 20 entries of the full appended history. -/
lemma foldl_addMessage (ms : List HistEntry) :
    ∀ (h₀ : List HistEntry) (m : HistEntry),
      List.foldl addMessageToHistory h₀ (m :: ms)
        = takeLast historyCap (h₀ ++ m :: ms) := by
  induction ms with
  | nil =>
    intro h₀ m
    exact addMessage_eq_takeLast h₀ m
  | cons m' ms' ih =>
    intro h₀ m
    show List.foldl addMessageToHistory (addMessageToHistory h₀ m) (m' :: ms') = _
    rw [ih (addMessageToHistory h₀ m) m', addMessage_eq_takeLast,
      takeLast_absorb, List.append_assoc]
    rfl

/-- C7: after any (non-empty) sequence of `add_message_to_history` calls
the history never exceeds the 20-entry cap, and the retained history is
precisely the suffix of most recent entries of the full appended history,
in order — the oldest entries are the ones dropped. -/
theorem C7_history_cap_fifo (h₀ : List HistEntry) (m : HistEntry)
    (ms : List HistEntry) :
    (List.foldl addMessageToHistory h₀ (m :: ms)).length ≤ historyCap
    ∧ List.foldl addMessageToHistory h₀ (m :: ms)
        = takeLast historyCap (h₀ ++ m :: ms)
    ∧ List.foldl addMessageToHistory h₀ (m :: ms) <:+ (h₀ ++ m :: ms) := by
  have heq := foldl_addMessage ms h₀ m
  refine ⟨?_, heq, ?_⟩
  · rw [heq]
    exact takeLast_length_le _ _
  · rw [heq]
    exact List.drop_suffix _ _

/-- C7 witness: pushing one entry onto a 25-entry history caps it at 20,
keeping the suffix. -/
theorem C7_witness :
    (List.foldl addMessageToHistory
        ((List.range 25).map (fun i => HistEntry.mk i "m")) [HistEntry.mk 25 "x"]).length
      ≤ historyCap
    ∧ List.foldl addMessageToHistory
        ((List.range 25).map (fun i => HistEntry.mk i "m")) [HistEntry.mk 25 "x"]
      = takeLast historyCap
          (((List.range 25).map (fun i => HistEntry.mk i "m")) ++ [HistEntry.mk 25 "x"]) :=
  ⟨(C7_history_cap_fifo ((List.range 25).map (fun i => HistEntry.mk i "m"))
      (HistEntry.mk 25 "x") []).1,
   (C7_history_cap_fifo ((List.range 25).map (fun i => HistEntry.mk i "m"))
      (HistEntry.mk 25 "x") []).2.1⟩

/-- When no extraction pattern yields a match on the raw output,
`_generate_chart_data` returns nothing, whatever the chart type. -/
lemma generateChartData_none (raw : String)
    (h1 : findallColonNum raw = []) (h2 : findallCity raw = [])
    (h3 : findallDept raw = []) (h4 : findallSeattle raw = [])
    (h5 : findallSalary raw = []) (h6 : findallGeneric raw = []) :
    ∀ ctype d, generateChartData raw ctype d = none := by
  intro ctype d
  unfold generateChartData genericChartBranch
  rw [h1, h2, h3, h4, h5, h6]
  simp

/-- C8: on the synthesis output
`"Answer: X | Chart: bar | Data: Engineering: 5, Sales: 4"` with raw
execution output `"Engineering: 5, Sales: 4"`, parsing yields chart type
`"bar"` with labels `["Engineering", "Sales"]` and values `[5, 4]`; and
whenever the declared chart kind is recognized but no extraction pattern
yields a match on the raw output, the chart kind degrades to `"none"`. -/
theorem C8_synthesis_chart_extraction :
    parseSynthesisResult "Answer: X | Chart: bar | Data: Engineering: 5, Sales: 4"
        "Engineering: 5, Sales: 4"
      = ⟨"X", "bar",
         some (Sum.inr ⟨"bar", some "Count", ["Engineering", "Sales"], [5, 4]⟩)⟩
    ∧ ∀ synth raw : String,
        strContains synth "| Chart:" = true →
        strToLower (synthesisParts synth).2.1 ∈ validChartTypes →
        findallColonNum raw = [] → findallCity raw = [] →
        findallDept raw = [] → findallSeattle raw = [] →
        findallSalary raw = [] → findallGeneric raw = [] →
        (parseSynthesisResult synth raw).chartType = "none" := by
  constructor
  · decide
  · intro synth raw hc hmem h1 h2 h3 h4 h5 h6
    have hgen := generateChartData_none raw h1 h2 h3 h4 h5 h6
    unfold parseSynthesisResult
    rcases hparts : synthesisParts synth with ⟨a, c, d⟩
    rw [hparts] at hmem
    simp only at hmem
    have hnone : strToLower c ≠ "none" := by
      intro he
      rw [he] at hmem
      exact absurd hmem (by decide)
    rw [hc]
    simp only [hparts, if_true]
    rw [if_pos ⟨hnone, hmem⟩, hgen (strToLower c) d]

/-- C8 witness: a recognized pie request over raw output matching no
extraction pattern degrades to no chart. -/
theorem C8_witness :
    (parseSynthesisResult "Answer: Y | Chart: pie | Data: z"
        "no digits here").chartType = "none" :=
  C8_synthesis_chart_extraction.2 "Answer: Y | Chart: pie | Data: z"
    "no digits here" (by decide) (by decide) (by decide) (by decide)
    (by decide) (by decide) (by decide) (by decide)

/-- A non-erroring execution at an in-range attempt returns its output
after a single executor invocation. -/
lemma executeCodeWithRetry_ok (execRes : String → String)
    (fixer : String → String → String) (code : String) (attempt : Nat)
    (ha : ¬ attempt > maxRetryAttempts)
    (h : strStartsWith (execRes code) "Error executing code" = false) :
    executeCodeWithRetry execRes fixer code attempt = (.ok (execRes code), 1) := by
  rw [executeCodeWithRetry.eq_def]
  simp [ha, h]

/-- An erroring execution below the ceiling whose patch differs recurses
on the patched script, adding one executor invocation. -/
lemma executeCodeWithRetry_err_fix (execRes : String → String)
    (fixer : String → String → String) (code : String) (attempt : Nat)
    (ha : ¬ attempt > maxRetryAttempts) (hlt : attempt < maxRetryAttempts)
    (h : strStartsWith (execRes code) "Error executing code" = true)
    (hfix : fixer code (execRes code) ≠ code) :
    executeCodeWithRetry execRes fixer code attempt
      = ((executeCodeWithRetry execRes fixer (fixer code (execRes code))
            (attempt + 1)).1,
         1 + (executeCodeWithRetry execRes fixer (fixer code (execRes code))
            (attempt + 1)).2) := by
  rw [executeCodeWithRetry.eq_def]
  simp [ha, h, hlt, hfix]

/-- C9: a script whose first run produces the error marker, whose patch
differs, and whose patched run succeeds, drives
`_execute_code_with_retry` (from attempt 1) through exactly two
`execute_code_safely` invocations, returning the successful output. -/
theorem C9_repair_succeeds_in_two (execRes : String → String)
    (fixer : String → String → String) (code code' : String)
    (h1 : strStartsWith (execRes code) "Error executing code" = true)
    (h2 : fixer code (execRes code) = code')
    (h3 : code' ≠ code)
    (h4 : strStartsWith (execRes code') "Error executing code" = false) :
    executeCodeWithRetry execRes fixer code 1 = (.ok (execRes code'), 2) := by
  rw [executeCodeWithRetry_err_fix execRes fixer code 1
    (by simp [maxRetryAttempts]) (by simp [maxRetryAttempts]) h1
    (by rw [h2]; exact h3)]
  rw [h2, executeCodeWithRetry_ok execRes fixer code' 2
    (by simp [maxRetryAttempts]) h4]
  rfl

/-- C9 witness: `"bad"` fails once, the patch `"good"` succeeds, two
executor invocations in total. -/
theorem C9_witness :
    executeCodeWithRetry
        (fun c => if c = "bad" then "Error executing code: x" else "42")
        (fun _ _ => "good") "bad" 1
      = (.ok "42", 2) := by
  have h := C9_repair_succeeds_in_two
    (fun c => if c = "bad" then "Error executing code: x" else "42")
    (fun _ _ => "good") "bad" "good"
    (by decide) rfl (by decide) (by decide)
  simpa using h

end Spec2Proof
